import Mathlib

/-!
Verification development for the core of the eyes.sdk.javascript repository:
the region-tiling algorithms (`Region.js`), the mutable image wrapper
(`MutableImage.js`), and the viewport sizing / full-page capture pipeline
(`EyesSeleniumUtils.js`).  JavaScript pixel coordinates are modelled as `Int`;
fractional scale ratios as `ℚ`; fallible operations return `Except String`.
-/

/-- Size of a rectangle, mirroring `RectangleSize` (`_width`, `_height`). -/
structure RectangleSize where
  width : Int
  height : Int
deriving DecidableEq, Repr

/-- Location of a point, mirroring `Location` (`_x`, `_y`). -/
structure Location where
  x : Int
  y : Int
deriving DecidableEq, Repr

/-- Region in a two-dimensional plane, mirroring `Region` (`Region.js`,
fields `_left`, `_top`, `_width`, `_height`).  The coordinate-space tag
carried by the source class is omitted: it never affects the algorithms the
claims are about. -/
structure Region where
  left : Int
  top : Int
  width : Int
  height : Int
deriving DecidableEq, Repr

/-- Membership of the integer pixel `(x, y)` in a region: the region covers
the half-open box of pixels `[left, left+width) x [top, top+height)`. -/
def Region.containsPt (r : Region) (x y : Int) : Prop :=
  r.left ≤ x ∧ x < r.left + r.width ∧ r.top ≤ y ∧ y < r.top + r.height

instance (r : Region) (x y : Int) : Decidable (r.containsPt x y) := by
  unfold Region.containsPt; infer_instance

/-- Two regions cover no common pixel. -/
def Region.disjointPx (a b : Region) : Prop :=
  ∀ x y : Int, ¬(a.containsPt x y ∧ b.containsPt x y)

/-- Raster (row-major) order on tiles: `a` lies in an earlier row than `b`,
or in the same row further to the left. -/
def Region.rowMajorBefore (a b : Region) : Prop :=
  a.top < b.top ∨ (a.top = b.top ∧ a.left < b.left)

/-- Modelled from the spec: `ArgumentGuard.greaterThanZero`.  The file
`ArgumentGuard.js` is referenced by `Region.js` but is not among the sources
here; the spec says "Degenerate inputs (non-positive tile width or height)
are a precondition violation - fail fast, do not silently special-case". -/
def ArgumentGuard.greaterThanZero (param : Int) (paramName : String) : Except String Unit :=
  if param > 0 then Except.ok () else Except.error (paramName ++ " must be greater than zero")

/-- Inner loop of `_getSubRegionsWithVaryingSize` (`Region.js`): one row of
tiles, left to right; the rightmost tile is clipped at `right`.  The
conjunct `0 < maxW` in the guard only makes termination manifest; the
argument guard of the wrapper guarantees it. -/
def varyingRow (right maxW currentTop currentBottom : Int) (currentLeft : Int) : List Region :=
  if _h : 0 < maxW ∧ currentLeft < right then
    { left := currentLeft, top := currentTop,
      width := (if currentLeft + maxW > right then right else currentLeft + maxW) - currentLeft,
      height := currentBottom - currentTop } ::
      varyingRow right maxW currentTop currentBottom (currentLeft + maxW)
  else []
termination_by (right - currentLeft).toNat
decreasing_by omega

/-- Outer loop of `_getSubRegionsWithVaryingSize`: rows of tiles, top to
bottom; the bottom row is clipped at `bottom`. -/
def varyingRows (left right bottom maxW maxH : Int) (currentTop : Int) : List Region :=
  if _h : 0 < maxH ∧ currentTop < bottom then
    varyingRow right maxW currentTop
      (if currentTop + maxH > bottom then bottom else currentTop + maxH) left ++
      varyingRows left right bottom maxW maxH (currentTop + maxH)
  else []
termination_by (bottom - currentTop).toNat
decreasing_by omega

/-- Embedding of `_getSubRegionsWithVaryingSize` (`Region.js`): argument
guards, then the clipping tiling loops over the container. -/
def getSubRegionsWithVaryingSize (containerRegion : Region) (maxSubRegionSize : RectangleSize) :
    Except String (List Region) := do
  let _ ← ArgumentGuard.greaterThanZero maxSubRegionSize.width "maxSubRegionSize.getWidth()"
  let _ ← ArgumentGuard.greaterThanZero maxSubRegionSize.height "maxSubRegionSize.getHeight()"
  pure (varyingRows containerRegion.left (containerRegion.left + containerRegion.width)
    (containerRegion.top + containerRegion.height)
    maxSubRegionSize.width maxSubRegionSize.height containerRegion.top)

/-- Inner loop of `_getSubRegionsWithFixedSize` (`Region.js`): one row of
fixed-size tiles; when the next tile would overrun `right` its left edge is
shifted back to `right - subW + 1` (the two branches of the source's
conditional reassignment of `currentLeft` are spelled out). -/
def fixedRow (right subW currentTop subH : Int) (currentLeft : Int) : List Region :=
  if _h : 0 < subW ∧ currentLeft ≤ right then
    if currentLeft + subW > right then
      { left := (right - subW) + 1, top := currentTop, width := subW, height := subH } ::
        fixedRow right subW currentTop subH (((right - subW) + 1) + subW)
    else
      { left := currentLeft, top := currentTop, width := subW, height := subH } ::
        fixedRow right subW currentTop subH (currentLeft + subW)
  else []
termination_by (right + 1 - currentLeft).toNat
decreasing_by
  · omega
  · omega

/-- Outer loop of `_getSubRegionsWithFixedSize`: rows of fixed-size tiles;
when the next row would overrun `bottom` its top edge is shifted back to
`bottom - subH + 1`. -/
def fixedRows (left right bottom subW subH : Int) (currentTop : Int) : List Region :=
  if _h : 0 < subH ∧ currentTop ≤ bottom then
    if currentTop + subH > bottom then
      fixedRow right subW ((bottom - subH) + 1) subH left ++
        fixedRows left right bottom subW subH (((bottom - subH) + 1) + subH)
    else
      fixedRow right subW currentTop subH left ++
        fixedRows left right bottom subW subH (currentTop + subH)
  else []
termination_by (bottom + 1 - currentTop).toNat
decreasing_by
  · omega
  · omega

/-- Embedding of `_getSubRegionsWithFixedSize` (`Region.js`): argument
guards, normalisation of the tile size to the container, the single-tile
case, then the shifted fixed-size tiling loops. -/
def getSubRegionsWithFixedSize (containerRegion : Region) (subRegionSize : RectangleSize) :
    Except String (List Region) := do
  let _ ← ArgumentGuard.greaterThanZero subRegionSize.width "subRegionSize width"
  let _ ← ArgumentGuard.greaterThanZero subRegionSize.height "subRegionSize height"
  let subRegionWidth := if subRegionSize.width > containerRegion.width then
    containerRegion.width else subRegionSize.width
  let subRegionHeight := if subRegionSize.height > containerRegion.height then
    containerRegion.height else subRegionSize.height
  if subRegionWidth = containerRegion.width ∧ subRegionHeight = containerRegion.height then
    pure [containerRegion]
  else
    pure (fixedRows containerRegion.left (containerRegion.left + containerRegion.width - 1)
      (containerRegion.top + containerRegion.height - 1) subRegionWidth subRegionHeight
      containerRegion.top)

/-- Embedding of `Region.getSubRegions` (`Region.js`): dispatch between the
fixed-size and varying-size tiling policies. -/
def Region.getSubRegions (r : Region) (subRegionSize : RectangleSize) (isFixedSize : Bool) :
    Except String (List Region) :=
  if isFixedSize then getSubRegionsWithFixedSize r subRegionSize
  else getSubRegionsWithVaryingSize r subRegionSize

/-- Decoded bitmap, modelling the image data produced by
`ImageUtils.parseImage` (`that._imageBmp`): the dimensions plus an abstract
pixel payload. -/
structure Bmp where
  width : Int
  height : Int
  data : List Nat
deriving DecidableEq, Repr

/-- Modelled from the spec: the `ImageUtils` primitives used by
`MutableImage.js` (`ImageUtils.js` is not among the sources here).  The spec
says decoding may fail with a decode error on undecodable bytes; the
transforms themselves are kept abstract, so the theorems below hold for an
arbitrary implementation. -/
structure ImageUtilsModel where
  parseImage : List Nat → Except String Bmp
  scaleBmp : Bmp → ℚ → Bmp
  cropBmp : Bmp → Region → Bmp
  rotateBmp : Bmp → Int → Bmp

/-- State of a `MutableImage` (`MutableImage.js`): the encoded buffer (set
to `none` where the source sets `_imageBuffer = null`), the `_isParsed`
flag, the decoded bitmap, and the cached dimensions and coordinates. -/
structure MutableImage where
  imageBuffer : Option (List Nat)
  isParsed : Bool
  imageBmp : Option Bmp
  width : Int
  height : Int
  top : Int
  left : Int
deriving DecidableEq, Repr

/-- Embedding of `_parseImage` (`MutableImage.js`), instrumented with the
number of decode operations performed (the second component).  `disabled`
is the module-level flag `!fs.open` computed at load time. -/
def parseImageStep (disabled : Bool) (U : ImageUtilsModel) (that : MutableImage) :
    Except String (MutableImage × Nat) :=
  if that.isParsed || disabled then Except.ok (that, 0)
  else
    match that.imageBuffer with
    | none => Except.error "no image buffer to parse"
    | some buf =>
      match U.parseImage buf with
      | Except.error e => Except.error e
      | Except.ok imageData =>
        Except.ok ({ that with
          imageBmp := some imageData
          width := imageData.width
          height := imageData.height
          isParsed := true }, 1)

/-- Embedding of `MutableImage.scaleImage`: a ratio of exactly 1 resolves
immediately; otherwise the image is parsed (if permitted) and, only when it
is actually parsed, scaled, with the encoded buffer invalidated. -/
def MutableImage.scaleImage (disabled : Bool) (U : ImageUtilsModel) (that : MutableImage)
    (scaleRatio : ℚ) : Except String (MutableImage × Nat) :=
  if scaleRatio = 1 then Except.ok (that, 0)
  else
    match parseImageStep disabled U that with
    | Except.error e => Except.error e
    | Except.ok (that1, n) =>
      if that1.isParsed then
        match that1.imageBmp with
        | none => Except.error "image marked parsed but has no bitmap"
        | some bmp0 =>
          Except.ok ({ that1 with
            imageBmp := some (U.scaleBmp bmp0 scaleRatio)
            imageBuffer := none
            width := (U.scaleBmp bmp0 scaleRatio).width
            height := (U.scaleBmp bmp0 scaleRatio).height }, n)
      else Except.ok (that1, n)

/-- Embedding of `MutableImage.cropImage` (the source has no early return
here: it always goes through `_parseImage`). -/
def MutableImage.cropImage (disabled : Bool) (U : ImageUtilsModel) (that : MutableImage)
    (region : Region) : Except String (MutableImage × Nat) :=
  match parseImageStep disabled U that with
  | Except.error e => Except.error e
  | Except.ok (that1, n) =>
    if that1.isParsed then
      match that1.imageBmp with
      | none => Except.error "image marked parsed but has no bitmap"
      | some bmp0 =>
        Except.ok ({ that1 with
          imageBmp := some (U.cropBmp bmp0 region)
          imageBuffer := none
          width := (U.cropBmp bmp0 region).width
          height := (U.cropBmp bmp0 region).height }, n)
    else Except.ok (that1, n)

/-- Embedding of `MutableImage.rotateImage`: zero degrees resolves with the
image unchanged; otherwise parse-then-rotate, as for scaling. -/
def MutableImage.rotateImage (disabled : Bool) (U : ImageUtilsModel) (that : MutableImage)
    (degrees : Int) : Except String (MutableImage × Nat) :=
  if degrees = 0 then Except.ok (that, 0)
  else
    match parseImageStep disabled U that with
    | Except.error e => Except.error e
    | Except.ok (that1, n) =>
      if that1.isParsed then
        match that1.imageBmp with
        | none => Except.error "image marked parsed but has no bitmap"
        | some bmp0 =>
          Except.ok ({ that1 with
            imageBmp := some (U.rotateBmp bmp0 degrees)
            imageBuffer := none
            width := (U.rotateBmp bmp0 degrees).width
            height := (U.rotateBmp bmp0 degrees).height }, n)
      else Except.ok (that1, n)


/-- Browser window environment for `_setBrowserSize`
(`EyesSeleniumUtils.js`): `observedSize k` is the window size reported by
`browser.manage().window().getSize()` after the `k`-th `setSize` request
and its settle delay. -/
structure BrowserWindowOracle where
  observedSize : Nat → RectangleSize

/-- Embedding of `EyesSeleniumUtils._setBrowserSize`: request the size,
wait, re-measure; resolve when the measured size matches, reject when the
retry budget is exhausted, otherwise recurse with one retry fewer.  The
result is paired with the index after the last resize attempt performed
(`k` is the index of the next attempt, so starting from 0 the second
component is the number of attempts). -/
def setBrowserSizeAttempts (o : BrowserWindowOracle) (requiredSize : RectangleSize) :
    Nat → Nat → Except String Unit × Nat
  | retries, k =>
    if o.observedSize k = requiredSize then (Except.ok (), k + 1)
    else
      match retries with
      | 0 => (Except.error "Failed to set browser size: retries is out.", k + 1)
      | r + 1 => setBrowserSizeAttempts o requiredSize r (k + 1)

/-- Embedding of `EyesSeleniumUtils.setBrowserSize`: run `_setBrowserSize`
with 3 retries and map resolution/rejection to `true`/`false`. -/
def setBrowserSize (o : BrowserWindowOracle) (requiredSize : RectangleSize) : Bool × Nat :=
  match setBrowserSizeAttempts o requiredSize 3 0 with
  | (Except.ok _, n) => (true, n)
  | (Except.error _, n) => (false, n)

/-- Browser environment for the zoom-workaround search `_setWindowSize`
(`EyesSeleniumUtils.js`): `viewportAfter k` is the viewport size measured
after the `k`-th browser-resize attempt of the search.  The boolean result
of the inner `setBrowserSize` call is ignored by the source, so it does not
appear. -/
structure ZoomOracle where
  viewportAfter : Nat → RectangleSize

/-- Embedding of `EyesSeleniumUtils._setWindowSize`, the recursive zoom
workaround: nudge the per-axis accumulated change by the step while it has
not exceeded the measured discrepancy and the axis still mismatches, stop
on a stalled candidate browser size, resize and re-measure, then recurse
while `--retriesLeft > 0`.  The result is paired with the index after the
last browser-resize attempt performed (`k` starts at 0, so the second
component is the number of attempts). -/
def setWindowSize (o : ZoomOracle) (requiredSize browserSize : RectangleSize)
    (widthDiff widthStep heightDiff heightStep : Int) :
    RectangleSize → Int → Int → Nat → Option RectangleSize → Nat →
      Except String Unit × Nat
  | actualViewportSize, currWidthChange, currHeightChange, retriesLeft,
      lastRequiredBrowserSize, k =>
    let cWC := if |currWidthChange| ≤ |widthDiff| ∧
        actualViewportSize.width ≠ requiredSize.width then
      currWidthChange + widthStep else currWidthChange
    let cHC := if |currHeightChange| ≤ |heightDiff| ∧
        actualViewportSize.height ≠ requiredSize.height then
      currHeightChange + heightStep else currHeightChange
    let requiredBrowserSize : RectangleSize :=
      { width := browserSize.width + cWC, height := browserSize.height + cHC }
    if lastRequiredBrowserSize = some requiredBrowserSize then (Except.ok (), k)
    else
      if o.viewportAfter k = requiredSize then (Except.ok (), k + 1)
      else if (|cWC| ≤ |widthDiff| ∨ |cHC| ≤ |heightDiff|) ∧ retriesLeft - 1 > 0 then
        setWindowSize o requiredSize browserSize widthDiff widthStep heightDiff heightStep
          (o.viewportAfter k) cWC cHC (retriesLeft - 1) (some requiredBrowserSize) (k + 1)
      else (Except.error "Failed to set window size!", k + 1)
termination_by avs cwc chc retriesLeft last k => retriesLeft
decreasing_by omega

/-- Embedding of the final stage of `EyesSeleniumUtils.setViewportSize` (the
body of the last `getSize` callback): compute the per-axis discrepancy
between the measured and required viewport, and enter the zoom workaround
`_setWindowSize` only when both discrepancies are within `MAX_DIFF = 3`,
with the retry budget `|(widthDiff or 1) * (heightDiff or 1)| * 2` (a zero
per-axis diff is replaced by 1); otherwise reject at once.  The result is
paired with the number of browser-resize attempts the workaround performed. -/
def setViewportSizeFinal (o : ZoomOracle)
    (requiredSize actualViewportSize browserSize : RectangleSize) :
    Except String Unit × Nat :=
  let MAX_DIFF : Int := 3
  let widthDiff := actualViewportSize.width - requiredSize.width
  let widthStep : Int := if widthDiff > 0 then -1 else 1
  let heightDiff := actualViewportSize.height - requiredSize.height
  let heightStep : Int := if heightDiff > 0 then -1 else 1
  if |widthDiff| ≤ MAX_DIFF ∧ |heightDiff| ≤ MAX_DIFF then
    let retriesLeft := (|(if widthDiff = 0 then 1 else widthDiff) *
      (if heightDiff = 0 then 1 else heightDiff)| * 2).toNat
    match setWindowSize o requiredSize browserSize widthDiff widthStep heightDiff heightStep
      actualViewportSize 0 0 retriesLeft none 0 with
    | (Except.ok _, n) => (Except.ok (), n)
    | (Except.error _, n) =>
      (Except.error "Failed to set viewport size: zoom workaround failed.", n)
  else (Except.error "Failed to set viewport size!", 0)

/-- Modelled from the spec: `GeometryUtils.getSubRegions` with
`isFixedSize = false`, as used by the capture pipeline (`GeometryUtils.js`
is not among the sources here).  Per the spec's tiling contract this is the
varying-size tiling of the given container, so it reuses the loops of
`_getSubRegionsWithVaryingSize`. -/
def GeometryUtils.getSubRegions (containerRegion : Region) (subRegionSize : RectangleSize) :
    Except String (List Region) :=
  getSubRegionsWithVaryingSize containerRegion subRegionSize

/-- Environment of the capture pipeline `getScreenshot`
(`EyesSeleniumUtils.js`).  `clampPos p` is the scroll offset actually
reached when `positionProvider.setPosition p` is requested (browsers may
clamp); `captureOk k` and `captureSize k` describe the `k`-th
`_captureViewport` call (whether the underlying screenshot succeeds, and
the size of the image it yields after cut/scale/rotate); `entireSize` is
the measured full page size, `none` when the measurement fails;
`pixelRatio` likewise; `isBodyOverflowHidden` is the computed body-overflow
test used with CSS transitions. -/
structure CaptureOracle where
  entireSize : Option RectangleSize
  pixelRatio : Option ℚ
  clampPos : Location → Location
  captureOk : Nat → Bool
  captureSize : Nat → RectangleSize
  isBodyOverflowHidden : Bool

/-- Mutable browser-page state the capture pipeline touches: the inline
overflow styles of the document element and of the body, and the position
provider's current scroll offset; plus instrumentation (how many
`_captureViewport` calls were made, and whether the tiling logic ran). -/
structure CaptureState where
  docOverflow : String
  bodyOverflow : String
  scrollPos : Location
  captureCount : Nat
  tilingInvoked : Bool
deriving DecidableEq, Repr

/-- One stitched part recorded by `_processPart`: the index of the capture
that produced its image, the image size, and the recorded position. -/
structure CapturePart where
  imageIndex : Nat
  size : RectangleSize
  position : Location
deriving DecidableEq, Repr

/-- Result of a capture: either the single viewport capture of the given
index, or an image stitched from the recorded parts. -/
inductive CaptureResult where
  | single (imageIndex : Nat)
  | stitched (parts : List CapturePart)
deriving DecidableEq, Repr

/-- Outcome of `getScreenshot`: the image source together with whether the
final region crop was applied to it. -/
structure ScreenshotOutcome where
  source : CaptureResult
  croppedAtEnd : Bool
deriving DecidableEq, Repr

/-- Embedding of `_captureViewport` reduced to what the pipeline observes:
the `k`-th capture either fails (a rejected screenshot / decode) or
produces an image of size `captureSize k`, identified by its index. -/
def captureViewport (o : CaptureOracle) (st : CaptureState) :
    Except String (Nat × RectangleSize) × CaptureState :=
  if o.captureOk st.captureCount then
    (Except.ok (st.captureCount, o.captureSize st.captureCount),
      { st with captureCount := st.captureCount + 1 })
  else
    (Except.error "failed to capture viewport screenshot",
      { st with captureCount := st.captureCount + 1 })

/-- Embedding of `_processPart` folded over the tile list: the `(0,0)` tile
reuses the already-captured origin image; any other tile drives the
position provider to the tile's offset, re-reads the achieved position,
captures a fresh viewport image, and records it at the achieved position. -/
def processParts (o : CaptureOracle) (originIndex : Nat) (originSize : RectangleSize) :
    List Region → CaptureState → List CapturePart →
      Except String (List CapturePart) × CaptureState
  | [], st, parts => (Except.ok parts, st)
  | part :: rest, st, parts =>
    if part.left = 0 ∧ part.top = 0 then
      processParts o originIndex originSize rest st
        (parts ++ [{ imageIndex := originIndex, size := originSize, position := ⟨0, 0⟩ }])
    else
      let st1 := { st with scrollPos := o.clampPos ⟨part.left, part.top⟩ }
      match captureViewport o st1 with
      | (Except.error e, st2) => (Except.error e, st2)
      | (Except.ok img, st2) =>
        processParts o originIndex originSize rest st2
          (parts ++ [{ imageIndex := img.1, size := img.2, position := st1.scrollPos }])

/-- Arguments of `getScreenshot` the modelled pipeline inspects.
`hideScrollbars = none` models the `null` default that falls back to
`useCssTransition`. -/
structure GetScreenshotArgs where
  viewportSize : RectangleSize
  fullPage : Bool
  hideScrollbars : Option Bool
  useCssTransition : Bool
  checkFrameOrElement : Bool
  hasRegionProvider : Bool
deriving DecidableEq, Repr

/-- Sequencing of state-passing steps that can reject: a rejected step
short-circuits with the browser state it left behind, exactly as a promise
rejection skips the subsequent `.then` callbacks of the source. -/
def andThen {α β : Type} (x : Except String α × CaptureState)
    (f : α → CaptureState → Except String β × CaptureState) :
    Except String β × CaptureState :=
  match x with
  | (Except.error e, st) => (Except.error e, st)
  | (Except.ok a, st) => f a st

/-- Resolution of the `hideScrollbars` argument of `getScreenshot`: the
source substitutes `useCssTransition` when the caller passed `null`. -/
def hideScrollbarsResolved (args : GetScreenshotArgs) : Bool :=
  match args.hideScrollbars with
  | none => args.useCssTransition
  | some b => b

/-- Whether step 3 of `getScreenshot` changes the body overflow: scrollbars
are being hidden, CSS transitions are in use, and the computed body
overflow is hidden. -/
def bodyWillChange (o : CaptureOracle) (args : GetScreenshotArgs) : Bool :=
  hideScrollbarsResolved args && (args.useCssTransition && o.isBodyOverflowHidden)

/-- Step 3 of `getScreenshot`: set the document overflow to `"hidden"` when
scrollbars are to be hidden and, when additionally required, set the body
overflow to `"initial"`. -/
def afterHideScrollbars (o : CaptureOracle) (args : GetScreenshotArgs) (st0 : CaptureState) :
    CaptureState :=
  let st1 := if hideScrollbarsResolved args then { st0 with docOverflow := "hidden" } else st0
  if bodyWillChange o args then { st1 with bodyOverflow := "initial" } else st1

/-- The three restoration `.then` callbacks at the end of `getScreenshot`,
in source order: restore the document overflow when scrollbars were hidden;
restore the body overflow when it was changed and its saved value is truthy
(in JavaScript the empty string is falsy, so an empty saved value is
skipped); restore the scroll state for a full-page capture. -/
def restoreChrome (o : CaptureOracle) (args : GetScreenshotArgs)
    (originalOverflow originalBodyOverflow : String) (originalPosition : Location)
    (st : CaptureState) : CaptureState :=
  let st9 := if hideScrollbarsResolved args then { st with docOverflow := originalOverflow }
    else st
  let st10 := if bodyWillChange o args ∧ originalBodyOverflow ≠ "" then
    { st9 with bodyOverflow := originalBodyOverflow } else st9
  if args.fullPage then { st10 with scrollPos := originalPosition } else st10

/-- Embedding of `getScreenshot` (`EyesSeleniumUtils.js`).  The promise
chain is modelled by explicit state passing (`andThen`); note that the
restoration steps (`restoreChrome`) are `.then` callbacks at the end of the
chain, so they run only when every earlier step succeeded.  The page-size
and pixel-ratio measurements recover locally with defaults (the pixel ratio
itself is not observed by the model).  The constants
`MIN_SCREENSHOT_PART_HEIGHT = 10` and `MAX_SCROLLBAR_SIZE = 50` are those
of the source. -/
def getScreenshot (o : CaptureOracle) (args : GetScreenshotArgs) (st0 : CaptureState) :
    Except String ScreenshotOutcome × CaptureState :=
  let entirePageSize := match o.entireSize with
    | some s => s
    | none => args.viewportSize
  let originalOverflow := st0.docOverflow
  let originalBodyOverflow := st0.bodyOverflow
  let st2 := afterHideScrollbars o args st0
  let originalPosition := st2.scrollPos
  let step4 : Except String Unit × CaptureState :=
    if args.fullPage then
      let stS := { st2 with scrollPos := o.clampPos ⟨0, 0⟩ }
      if stS.scrollPos ≠ (⟨0, 0⟩ : Location) then
        (Except.error "Could not scroll to the x/y corner of the screen", stS)
      else (Except.ok (), stS)
    else (Except.ok (), st2)
  andThen step4 fun _ st3 =>
  andThen (if args.hasRegionProvider then
      andThen (captureViewport o st3) fun _ st => (Except.ok (), st)
    else (Except.ok (), st3)) fun _ st4 =>
  andThen (captureViewport o st4) fun origin st5 =>
  andThen (
    if !args.fullPage && !args.checkFrameOrElement then
      (Except.ok (CaptureResult.single origin.1), st5)
    else if origin.2.width ≥ entirePageSize.width ∧
        origin.2.height ≥ entirePageSize.height then
      (Except.ok (CaptureResult.single origin.1), st5)
    else
      let screenshotPartSize : RectangleSize :=
        { width := origin.2.width, height := max (origin.2.height - 50) 10 }
      andThen (match GeometryUtils.getSubRegions
          ⟨0, 0, entirePageSize.width, entirePageSize.height⟩ screenshotPartSize with
        | Except.ok ps => (Except.ok ps, { st5 with tilingInvoked := true })
        | Except.error e => (Except.error e, { st5 with tilingInvoked := true }))
        fun screenshotParts st6 =>
      andThen (processParts o origin.1 origin.2 screenshotParts st6 []) fun parts st7 =>
      (Except.ok (CaptureResult.stitched parts), st7)) fun source st8 =>
  (Except.ok
    { source := source
      croppedAtEnd := !args.checkFrameOrElement && args.hasRegionProvider },
    restoreChrome o args originalOverflow originalBodyOverflow originalPosition st8)

/-- Sample environment where one capture covers the whole page and the
origin scroll lands exactly: a successful single-capture run. -/
def wholePageOracle : CaptureOracle where
  entireSize := some ⟨300, 300⟩
  pixelRatio := some 1
  clampPos := fun _ => ⟨0, 0⟩
  captureOk := fun _ => true
  captureSize := fun _ => ⟨300, 300⟩
  isBodyOverflowHidden := false

/-- Sample environment whose position provider clamps every scroll request
to `(0, 1)`. -/
def clampToY1Oracle : CaptureOracle where
  entireSize := some ⟨500, 500⟩
  pixelRatio := some 1
  clampPos := fun _ => ⟨0, 1⟩
  captureOk := fun _ => true
  captureSize := fun _ => ⟨100, 100⟩
  isBodyOverflowHidden := false

/-- Sample environment whose position provider clamps every scroll request
to `(0, 5)`. -/
def clampToY5Oracle : CaptureOracle where
  entireSize := some ⟨500, 500⟩
  pixelRatio := some 1
  clampPos := fun _ => ⟨0, 5⟩
  captureOk := fun _ => true
  captureSize := fun _ => ⟨100, 100⟩
  isBodyOverflowHidden := false

/-- Sample arguments: full-page capture with scrollbars hidden. -/
def fullPageHideArgs : GetScreenshotArgs where
  viewportSize := ⟨300, 300⟩
  fullPage := true
  hideScrollbars := some true
  useCssTransition := false
  checkFrameOrElement := false
  hasRegionProvider := false

/-- Sample arguments: full-page capture without hiding scrollbars. -/
def fullPageNoHideArgs : GetScreenshotArgs where
  viewportSize := ⟨100, 100⟩
  fullPage := true
  hideScrollbars := some false
  useCssTransition := false
  checkFrameOrElement := false
  hasRegionProvider := false

/-- Sample arguments: full-page capture, scrollbars hidden, small viewport. -/
def fullPageHideSmallArgs : GetScreenshotArgs where
  viewportSize := ⟨100, 100⟩
  fullPage := true
  hideScrollbars := some true
  useCssTransition := false
  checkFrameOrElement := false
  hasRegionProvider := false

/-- Sample pre-capture browser state. -/
def preCaptureState : CaptureState where
  docOverflow := "visible"
  bodyOverflow := "auto"
  scrollPos := ⟨7, 9⟩
  captureCount := 0
  tilingInvoked := false

/-- The state `preCaptureState` reaches after one successful capture. -/
def postCaptureState : CaptureState where
  docOverflow := "visible"
  bodyOverflow := "auto"
  scrollPos := ⟨7, 9⟩
  captureCount := 1
  tilingInvoked := false

/-- Sample pre-capture browser state with an empty body overflow. -/
def plainState : CaptureState where
  docOverflow := "visible"
  bodyOverflow := ""
  scrollPos := ⟨0, 0⟩
  captureCount := 0
  tilingInvoked := false

/-- Sample arguments: a plain viewport capture (not full-page, no frame or
element target). -/
def nonFullPageArgs : GetScreenshotArgs where
  viewportSize := ⟨300, 300⟩
  fullPage := false
  hideScrollbars := some false
  useCssTransition := false
  checkFrameOrElement := false
  hasRegionProvider := false

/-- Decoder model whose decode always fails, for exercising the disabled
mode: no operation may ever surface its error. -/
def failingImageUtils : ImageUtilsModel where
  parseImage := fun _ => Except.error "undecodable bytes"
  scaleBmp := fun b _ => b
  cropBmp := fun b _ => b
  rotateBmp := fun b _ => b

/-- Sample unparsed image state holding the encoded bytes `[1, 2, 3]`. -/
def sampleUnparsedImage : MutableImage where
  imageBuffer := some [1, 2, 3]
  isParsed := false
  imageBmp := none
  width := 0
  height := 0
  top := 0
  left := 0

example :
    Region.getSubRegions { left := 0, top := 0, width := 5, height := 3 }
      { width := 2, height := 2 } false =
    Except.ok [
      { left := 0, top := 0, width := 2, height := 2 },
      { left := 2, top := 0, width := 2, height := 2 },
      { left := 4, top := 0, width := 1, height := 2 },
      { left := 0, top := 2, width := 2, height := 1 },
      { left := 2, top := 2, width := 2, height := 1 },
      { left := 4, top := 2, width := 1, height := 1 }] := by
  simp [Region.getSubRegions, getSubRegionsWithVaryingSize, ArgumentGuard.greaterThanZero,
    varyingRows, varyingRow, Bind.bind, Except.bind, Pure.pure, Except.pure]

example :
    Region.getSubRegions { left := 0, top := 0, width := 2, height := 4 }
      { width := 3, height := 2 } true =
    Except.ok [
      { left := 0, top := 0, width := 2, height := 2 },
      { left := 0, top := 2, width := 2, height := 2 }] := by
  simp [Region.getSubRegions, getSubRegionsWithFixedSize, ArgumentGuard.greaterThanZero,
    fixedRows, fixedRow, Bind.bind, Except.bind, Pure.pure, Except.pure]

/-- Every tile of one varying-size row lies between `cl` and `right`, has the
row's top and height, has positive width at most `maxW`, and is clipped
exactly to `right` whenever it is narrower than `maxW`. -/
theorem varyingRow_mem (right maxW ct cb : Int) :
    ∀ cl, ∀ t ∈ varyingRow right maxW ct cb cl,
      t.top = ct ∧ t.height = cb - ct ∧ cl ≤ t.left ∧ t.left + t.width ≤ right ∧
      t.width ≤ maxW ∧ 0 < t.width ∧ (t.width < maxW → t.left + t.width = right) := by
  intro cl
  induction cl using varyingRow.induct right maxW ct cb with
  | case1 cl h ih =>
    intro t ht
    rw [varyingRow, dif_pos h] at ht
    rcases List.mem_cons.mp ht with rfl | ht
    · refine ⟨rfl, rfl, le_refl _, ?_, ?_, ?_, ?_⟩ <;> dsimp only <;> split <;> omega
    · have := ih t ht
      exact ⟨this.1, this.2.1, by omega, this.2.2.2.1, this.2.2.2.2.1,
        this.2.2.2.2.2.1, this.2.2.2.2.2.2⟩
  | case2 cl h =>
    intro t ht
    rw [varyingRow, dif_neg h] at ht
    simp at ht

/-- One varying-size row covers exactly the pixel strip
`[cl, right) x [ct, cb)`. -/
theorem varyingRow_cover (right maxW ct cb : Int) (hw : 0 < maxW) :
    ∀ cl, ∀ x y : Int,
      (∃ t ∈ varyingRow right maxW ct cb cl, t.containsPt x y) ↔
      (cl ≤ x ∧ x < right ∧ ct ≤ y ∧ y < cb) := by
  intro cl
  induction cl using varyingRow.induct right maxW ct cb with
  | case1 cl h ih =>
    intro x y
    rw [varyingRow, dif_pos h]
    constructor
    · rintro ⟨t, ht, hc⟩
      rcases List.mem_cons.mp ht with rfl | ht
      · revert hc
        simp only [Region.containsPt]
        split <;> (intro hc; omega)
      · have hic := (ih x y).mp ⟨t, ht, hc⟩
        omega
    · intro hx
      by_cases hcase : x < (if cl + maxW > right then right else cl + maxW)
      · refine ⟨_, List.mem_cons_self _ _, ?_⟩
        simp only [Region.containsPt]
        refine ⟨by omega, ?_, by omega, by omega⟩
        split at hcase <;> split <;> omega
      · have hex : ∃ t ∈ varyingRow right maxW ct cb (cl + maxW), t.containsPt x y := by
          rw [ih]
          split at hcase <;> omega
        obtain ⟨t, ht, hc⟩ := hex
        exact ⟨t, List.mem_cons_of_mem _ ht, hc⟩
  | case2 cl h =>
    intro x y
    rw [varyingRow, dif_neg h]
    simp only [List.not_mem_nil, false_and, exists_false, false_iff, not_and, not_lt]
    intro h1 h2
    omega

/-- Within one varying-size row, each tile ends (in `x`) no later than the
next tile starts. -/
theorem varyingRow_pairwise (right maxW ct cb : Int) :
    ∀ cl, List.Pairwise (fun a b => a.left + a.width ≤ b.left)
      (varyingRow right maxW ct cb cl) := by
  intro cl
  induction cl using varyingRow.induct right maxW ct cb with
  | case1 cl h ih =>
    rw [varyingRow, dif_pos h]
    refine List.Pairwise.cons ?_ ih
    intro t ht
    have hm := varyingRow_mem right maxW ct cb (cl + maxW) t ht
    dsimp only
    split <;> omega
  | case2 cl h =>
    rw [varyingRow, dif_neg h]
    exact List.Pairwise.nil

/-- Every tile of the varying-size grid lies inside the container box, is at
most `maxW x maxH`, has positive extent, and is clipped exactly to the
container's far edge in any dimension where it is smaller than requested. -/
theorem varyingRows_mem (left right bottom maxW maxH : Int) :
    ∀ ct0, ∀ t ∈ varyingRows left right bottom maxW maxH ct0,
      ct0 ≤ t.top ∧ t.top + t.height ≤ bottom ∧ left ≤ t.left ∧ t.left + t.width ≤ right ∧
      t.width ≤ maxW ∧ t.height ≤ maxH ∧ 0 < t.width ∧ 0 < t.height ∧
      (t.width < maxW → t.left + t.width = right) ∧
      (t.height < maxH → t.top + t.height = bottom) := by
  intro ct0
  induction ct0 using varyingRows.induct left right bottom maxW maxH with
  | case1 ct h ih =>
    intro t ht
    rw [varyingRows, dif_pos h] at ht
    rcases List.mem_append.mp ht with ht | ht
    · have hm := varyingRow_mem right maxW ct
        (if ct + maxH > bottom then bottom else ct + maxH) left t ht
      refine ⟨by omega, ?_, hm.2.2.1, hm.2.2.2.1, hm.2.2.2.2.1, ?_, hm.2.2.2.2.2.1, ?_,
        hm.2.2.2.2.2.2, ?_⟩ <;> (have h1 := hm.1; have h2 := hm.2.1; split at h2 <;> omega)
    · have := ih t ht
      exact ⟨by omega, this.2.1, this.2.2.1, this.2.2.2.1, this.2.2.2.2.1,
        this.2.2.2.2.2.1, this.2.2.2.2.2.2.1, this.2.2.2.2.2.2.2.1,
        this.2.2.2.2.2.2.2.2.1, this.2.2.2.2.2.2.2.2.2⟩
  | case2 ct h =>
    intro t ht
    rw [varyingRows, dif_neg h] at ht
    simp at ht

/-- The varying-size grid covers exactly the pixel box
`[left, right) x [ct0, bottom)`. -/
theorem varyingRows_cover (left right bottom maxW maxH : Int) (hw : 0 < maxW) (hh : 0 < maxH) :
    ∀ ct0, ∀ x y : Int,
      (∃ t ∈ varyingRows left right bottom maxW maxH ct0, t.containsPt x y) ↔
      (left ≤ x ∧ x < right ∧ ct0 ≤ y ∧ y < bottom) := by
  intro ct0
  induction ct0 using varyingRows.induct left right bottom maxW maxH with
  | case1 ct h ih =>
    intro x y
    rw [varyingRows, dif_pos h]
    constructor
    · rintro ⟨t, ht, hc⟩
      rcases List.mem_append.mp ht with ht | ht
      · have := (varyingRow_cover right maxW ct
          (if ct + maxH > bottom then bottom else ct + maxH) hw left x y).mp ⟨t, ht, hc⟩
        split at this <;> omega
      · have := (ih x y).mp ⟨t, ht, hc⟩
        omega
    · intro hx
      by_cases hcase : y < (if ct + maxH > bottom then bottom else ct + maxH)
      · have hex := (varyingRow_cover right maxW ct
          (if ct + maxH > bottom then bottom else ct + maxH) hw left x y).mpr
          (by refine ⟨by omega, by omega, by omega, hcase⟩)
        obtain ⟨t, ht, hc⟩ := hex
        exact ⟨t, List.mem_append_left _ ht, hc⟩
      · have hex := (ih x y).mpr (by split at hcase <;> omega)
        obtain ⟨t, ht, hc⟩ := hex
        exact ⟨t, List.mem_append_right _ ht, hc⟩
  | case2 ct h =>
    intro x y
    rw [varyingRows, dif_neg h]
    simp only [List.not_mem_nil, false_and, exists_false, false_iff, not_and, not_lt]
    intro h1 h2
    omega

/-- The tiles of the varying-size grid are pairwise pixel-disjoint. -/
theorem varyingRows_pairwise_disjoint (left right bottom maxW maxH : Int) :
    ∀ ct0, List.Pairwise Region.disjointPx (varyingRows left right bottom maxW maxH ct0) := by
  intro ct0
  induction ct0 using varyingRows.induct left right bottom maxW maxH with
  | case1 ct h ih =>
    rw [varyingRows, dif_pos h]
    rw [List.pairwise_append]
    refine ⟨?_, ih, ?_⟩
    · have hp := varyingRow_pairwise right maxW ct
        (if ct + maxH > bottom then bottom else ct + maxH) left
      refine hp.imp ?_
      intro a b hab x y ⟨hca, hcb⟩
      rcases hca with ⟨ha1, ha2, _, _⟩
      rcases hcb with ⟨hb1, _, _, _⟩
      omega
    · intro a ha b hb x y ⟨hca, hcb⟩
      have hma := varyingRow_mem right maxW ct
        (if ct + maxH > bottom then bottom else ct + maxH) left a ha
      have hmb := varyingRows_mem left right bottom maxW maxH (ct + maxH) b hb
      rcases hca with ⟨_, _, ha3, ha4⟩
      rcases hcb with ⟨_, _, hb3, hb4⟩
      have h1 := hma.1
      have h2 := hma.2.1
      have h3 := hmb.1
      split at h2 <;> omega
  | case2 ct h =>
    rw [varyingRows, dif_neg h]
    exact List.Pairwise.nil

/-- The varying-size grid lists its tiles in raster (row-major) order. -/
theorem varyingRows_pairwise_order (left right bottom maxW maxH : Int) :
    ∀ ct0, List.Pairwise Region.rowMajorBefore (varyingRows left right bottom maxW maxH ct0) := by
  intro ct0
  induction ct0 using varyingRows.induct left right bottom maxW maxH with
  | case1 ct h ih =>
    rw [varyingRows, dif_pos h]
    rw [List.pairwise_append]
    refine ⟨?_, ih, ?_⟩
    · have hp := varyingRow_pairwise right maxW ct
        (if ct + maxH > bottom then bottom else ct + maxH) left
      have hm := varyingRow_mem right maxW ct
        (if ct + maxH > bottom then bottom else ct + maxH) left
      rw [List.pairwise_iff_forall_sublist] at hp ⊢
      intro a b hs
      have hab := hp hs
      have hma := hm a (hs.subset (List.mem_cons_self _ _))
      have hmb := hm b (hs.subset (List.mem_cons_of_mem _ (List.mem_cons_self _ _)))
      exact Or.inr ⟨hma.1.trans hmb.1.symm, by have := hma.2.2.2.2.2.1; omega⟩
    · intro a ha b hb
      have hma := varyingRow_mem right maxW ct
        (if ct + maxH > bottom then bottom else ct + maxH) left a ha
      have hmb := varyingRows_mem left right bottom maxW maxH (ct + maxH) b hb
      exact Or.inl (by have := hma.1; have := hmb.1; omega)
  | case2 ct h =>
    rw [varyingRows, dif_neg h]
    exact List.Pairwise.nil

/-- C1: for every non-degenerate container region `R` and every tile size `S`
with positive width and height and `S ≤ R` in both dimensions, varying-size
tiling (`Region.getSubRegions` with `isFixedSize = false`) returns tiles in
row-major (left-to-right, top-to-bottom) order whose union exactly equals
`R` and whose pairwise intersections are empty; every tile is at most the
requested size, and only tiles clipped against the container's right/bottom
edge may be smaller than requested. -/
theorem varying_tiling_partition (R : Region) (S : RectangleSize)
    (hRw : 0 < R.width) (hRh : 0 < R.height) (hSw : 0 < S.width) (hSh : 0 < S.height)
    (hw : S.width ≤ R.width) (hh : S.height ≤ R.height) :
    ∃ tiles : List Region,
      R.getSubRegions S false = Except.ok tiles ∧
      (∀ x y : Int, (∃ t ∈ tiles, t.containsPt x y) ↔ R.containsPt x y) ∧
      List.Pairwise Region.disjointPx tiles ∧
      List.Pairwise Region.rowMajorBefore tiles ∧
      (∀ t ∈ tiles, t.width ≤ S.width ∧ t.height ≤ S.height) ∧
      (∀ t ∈ tiles,
        (t.width < S.width → t.left + t.width = R.left + R.width) ∧
        (t.height < S.height → t.top + t.height = R.top + R.height)) := by
  refine ⟨varyingRows R.left (R.left + R.width) (R.top + R.height) S.width S.height R.top,
    ?_, ?_, ?_, ?_, ?_, ?_⟩
  · simp [Region.getSubRegions, getSubRegionsWithVaryingSize, ArgumentGuard.greaterThanZero,
      hSw, hSh, Bind.bind, Except.bind, Pure.pure, Except.pure]
  · intro x y
    rw [varyingRows_cover _ _ _ _ _ hSw hSh]
    exact Iff.rfl
  · exact varyingRows_pairwise_disjoint _ _ _ _ _ _
  · exact varyingRows_pairwise_order _ _ _ _ _ _
  · intro t ht
    have := varyingRows_mem R.left (R.left + R.width) (R.top + R.height) S.width S.height R.top t ht
    exact ⟨this.2.2.2.2.1, this.2.2.2.2.2.1⟩
  · intro t ht
    have := varyingRows_mem R.left (R.left + R.width) (R.top + R.height) S.width S.height R.top t ht
    exact ⟨this.2.2.2.2.2.2.2.2.1, this.2.2.2.2.2.2.2.2.2⟩

/-- Witness for C1 at the container `(0,0) 5x3` and tile size `2x2`. -/
theorem varying_tiling_partition_witness :
    ∃ tiles : List Region,
      Region.getSubRegions { left := 0, top := 0, width := 5, height := 3 }
        { width := 2, height := 2 } false = Except.ok tiles ∧
      (∀ x y : Int, (∃ t ∈ tiles, t.containsPt x y) ↔
        Region.containsPt { left := 0, top := 0, width := 5, height := 3 } x y) ∧
      List.Pairwise Region.disjointPx tiles ∧
      List.Pairwise Region.rowMajorBefore tiles ∧
      (∀ t ∈ tiles, t.width ≤ 2 ∧ t.height ≤ 2) ∧
      (∀ t ∈ tiles, (t.width < 2 → t.left + t.width = 5) ∧ (t.height < 2 → t.top + t.height = 3)) :=
  varying_tiling_partition { left := 0, top := 0, width := 5, height := 3 }
    { width := 2, height := 2 } (by decide) (by decide) (by decide) (by decide)
    (by decide) (by decide)

/-- C9: for either tiling policy, a tile size with non-positive width or
height makes `Region.getSubRegions` fail with an argument error instead of
producing tiles. -/
theorem degenerate_tile_size_fails_fast (r : Region) (s : RectangleSize) (isFixedSize : Bool)
    (hdeg : s.width ≤ 0 ∨ s.height ≤ 0) :
    ∃ msg, Region.getSubRegions r s isFixedSize = Except.error msg := by
  by_cases hw0 : s.width > 0
  · have hh0 : ¬ s.height > 0 := by omega
    cases isFixedSize
    · refine ⟨"maxSubRegionSize.getHeight()" ++ " must be greater than zero", ?_⟩
      simp [Region.getSubRegions, getSubRegionsWithVaryingSize, ArgumentGuard.greaterThanZero,
        hw0, hh0, Bind.bind, Except.bind]
    · refine ⟨"subRegionSize height" ++ " must be greater than zero", ?_⟩
      simp [Region.getSubRegions, getSubRegionsWithFixedSize, ArgumentGuard.greaterThanZero,
        hw0, hh0, Bind.bind, Except.bind]
  · cases isFixedSize
    · refine ⟨"maxSubRegionSize.getWidth()" ++ " must be greater than zero", ?_⟩
      simp [Region.getSubRegions, getSubRegionsWithVaryingSize, ArgumentGuard.greaterThanZero,
        hw0, Bind.bind, Except.bind]
    · refine ⟨"subRegionSize width" ++ " must be greater than zero", ?_⟩
      simp [Region.getSubRegions, getSubRegionsWithFixedSize, ArgumentGuard.greaterThanZero,
        hw0, Bind.bind, Except.bind]

/-- Witness for C9: a `0x5` tile size is rejected by both policies. -/
theorem degenerate_tile_size_fails_fast_witness :
    ∃ msg, Region.getSubRegions { left := 0, top := 0, width := 10, height := 10 }
      { width := 0, height := 5 } false = Except.error msg :=
  degenerate_tile_size_fails_fast { left := 0, top := 0, width := 10, height := 10 }
    { width := 0, height := 5 } false (by decide)

/-- Every tile of one fixed-size row has exactly the row's size and top, and
keeps within `[min cl (right - subW + 1), right + 1)` horizontally. -/
theorem fixedRow_mem (right subW ct subH : Int) :
    ∀ cl, ∀ t ∈ fixedRow right subW ct subH cl,
      t.top = ct ∧ t.width = subW ∧ t.height = subH ∧
      min cl (right - subW + 1) ≤ t.left ∧ t.left + subW ≤ right + 1 := by
  intro cl
  induction cl using fixedRow.induct right subW ct subH with
  | case1 cl h hs ih =>
    intro t ht
    rw [fixedRow, dif_pos h, if_pos hs] at ht
    rcases List.mem_cons.mp ht with rfl | ht
    · exact ⟨rfl, rfl, rfl, by dsimp only; omega, by dsimp only; omega⟩
    · have := ih t ht
      exact ⟨this.1, this.2.1, this.2.2.1, by omega, this.2.2.2.2⟩
  | case2 cl h hs ih =>
    intro t ht
    rw [fixedRow, dif_pos h, if_neg hs] at ht
    rcases List.mem_cons.mp ht with rfl | ht
    · exact ⟨rfl, rfl, rfl, by dsimp only; omega, by dsimp only; omega⟩
    · have := ih t ht
      exact ⟨this.1, this.2.1, this.2.2.1, by omega, this.2.2.2.2⟩
  | case3 cl h =>
    intro t ht
    rw [fixedRow, dif_neg h] at ht
    simp at ht

/-- One fixed-size row covers every `x` of `[cl, right]`. -/
theorem fixedRow_cover (right subW ct subH : Int) (hw : 0 < subW) :
    ∀ cl x, cl ≤ x → x ≤ right →
      ∃ t ∈ fixedRow right subW ct subH cl, t.left ≤ x ∧ x < t.left + subW := by
  intro cl
  induction cl using fixedRow.induct right subW ct subH with
  | case1 cl h hs ih =>
    intro x hx1 hx2
    rw [fixedRow, dif_pos h, if_pos hs]
    refine ⟨_, List.mem_cons_self _ _, ?_, ?_⟩ <;> dsimp only <;> omega
  | case2 cl h hs ih =>
    intro x hx1 hx2
    rw [fixedRow, dif_pos h, if_neg hs]
    by_cases hcase : x < cl + subW
    · exact ⟨_, List.mem_cons_self _ _, by dsimp only; omega, by dsimp only; omega⟩
    · obtain ⟨t, ht, hc⟩ := ih x (by omega) hx2
      exact ⟨t, List.mem_cons_of_mem _ ht, hc⟩
  | case3 cl h =>
    intro x hx1 hx2
    omega

/-- Every tile of the fixed-size grid has exactly the normalised size and
keeps within the container box extended to `right + 1` and `bottom + 1`. -/
theorem fixedRows_mem (left right bottom subW subH : Int) :
    ∀ ct0, ∀ t ∈ fixedRows left right bottom subW subH ct0,
      t.width = subW ∧ t.height = subH ∧
      min left (right - subW + 1) ≤ t.left ∧ t.left + subW ≤ right + 1 ∧
      min ct0 (bottom - subH + 1) ≤ t.top ∧ t.top + subH ≤ bottom + 1 := by
  intro ct0
  induction ct0 using fixedRows.induct left right bottom subW subH with
  | case1 ct h hs ih =>
    intro t ht
    rw [fixedRows, dif_pos h, if_pos hs] at ht
    rcases List.mem_append.mp ht with ht | ht
    · have := fixedRow_mem right subW (bottom - subH + 1) subH left t ht
      exact ⟨this.2.1, this.2.2.1, this.2.2.2.1, this.2.2.2.2, by omega, by omega⟩
    · have := ih t ht
      exact ⟨this.1, this.2.1, this.2.2.1, this.2.2.2.1, by omega, this.2.2.2.2.2⟩
  | case2 ct h hs ih =>
    intro t ht
    rw [fixedRows, dif_pos h, if_neg hs] at ht
    rcases List.mem_append.mp ht with ht | ht
    · have := fixedRow_mem right subW ct subH left t ht
      exact ⟨this.2.1, this.2.2.1, this.2.2.2.1, this.2.2.2.2, by omega, by omega⟩
    · have := ih t ht
      exact ⟨this.1, this.2.1, this.2.2.1, this.2.2.2.1, by omega, this.2.2.2.2.2⟩
  | case3 ct h =>
    intro t ht
    rw [fixedRows, dif_neg h] at ht
    simp at ht

/-- The fixed-size grid covers every pixel of `[left, right] x [ct0, bottom]`. -/
theorem fixedRows_cover (left right bottom subW subH : Int) (hw : 0 < subW) (hh : 0 < subH) :
    ∀ ct0 x y, left ≤ x → x ≤ right → ct0 ≤ y → y ≤ bottom →
      ∃ t ∈ fixedRows left right bottom subW subH ct0, t.containsPt x y := by
  intro ct0
  induction ct0 using fixedRows.induct left right bottom subW subH with
  | case1 ct h hs ih =>
    intro x y hx1 hx2 hy1 hy2
    rw [fixedRows, dif_pos h, if_pos hs]
    obtain ⟨t, ht, hc1, hc2⟩ := fixedRow_cover right subW (bottom - subH + 1) subH hw left x hx1 hx2
    have hm := fixedRow_mem right subW (bottom - subH + 1) subH left t ht
    refine ⟨t, List.mem_append_left _ ht, hc1, by omega, by omega, by omega⟩
  | case2 ct h hs ih =>
    intro x y hx1 hx2 hy1 hy2
    by_cases hcase : y < ct + subH
    · rw [fixedRows, dif_pos h, if_neg hs]
      obtain ⟨t, ht, hc1, hc2⟩ := fixedRow_cover right subW ct subH hw left x hx1 hx2
      have hm := fixedRow_mem right subW ct subH left t ht
      refine ⟨t, List.mem_append_left _ ht, hc1, by omega, by omega, by omega⟩
    · rw [fixedRows, dif_pos h, if_neg hs]
      obtain ⟨t, ht, hc⟩ := ih x y hx1 hx2 (by omega) hy2
      exact ⟨t, List.mem_append_right _ ht, hc⟩
  | case3 ct h =>
    intro x y hx1 hx2 hy1 hy2
    omega

/-- Unfolding of `getSubRegionsWithFixedSize` once the argument guards pass:
the tile size is clamped to the container and either the single-tile case or
the shifted grid is produced. -/
theorem getSubRegionsWithFixedSize_eq (R : Region) (S : RectangleSize)
    (hSw : 0 < S.width) (hSh : 0 < S.height) :
    getSubRegionsWithFixedSize R S =
      if min S.width R.width = R.width ∧ min S.height R.height = R.height then
        Except.ok [R]
      else
        Except.ok (fixedRows R.left (R.left + R.width - 1) (R.top + R.height - 1)
          (min S.width R.width) (min S.height R.height) R.top) := by
  have hw1 : (if S.width > R.width then R.width else S.width) = min S.width R.width := by
    split <;> omega
  have hh1 : (if S.height > R.height then R.height else S.height) = min S.height R.height := by
    split <;> omega
  simp [getSubRegionsWithFixedSize, ArgumentGuard.greaterThanZero, hSw, hSh, hw1, hh1,
    Bind.bind, Except.bind, Pure.pure, Except.pure]

/-- C2 (amended): fixed-size tiling produces tiles that all have exactly the
requested size clamped to the container's dimensions; if `S ≥ R` in both
dimensions exactly one tile equal to `R` is produced; otherwise the tiles
stay inside `R` and their union covers `R` exactly (the last row/column
being shifted backward so it aligns with `R`'s far edge). -/
theorem fixed_tiling_amended (R : Region) (S : RectangleSize)
    (hRw : 0 ≤ R.width) (hRh : 0 ≤ R.height) (hSw : 0 < S.width) (hSh : 0 < S.height) :
    ∃ tiles : List Region,
      R.getSubRegions S true = Except.ok tiles ∧
      (∀ t ∈ tiles, t.width = min S.width R.width ∧ t.height = min S.height R.height) ∧
      (R.width ≤ S.width ∧ R.height ≤ S.height → tiles = [R]) ∧
      (∀ x y : Int, (∃ t ∈ tiles, t.containsPt x y) ↔ R.containsPt x y) ∧
      (∀ t ∈ tiles, R.left ≤ t.left ∧ t.left + t.width ≤ R.left + R.width ∧
        R.top ≤ t.top ∧ t.top + t.height ≤ R.top + R.height) := by
  have hdisp : R.getSubRegions S true = getSubRegionsWithFixedSize R S := by
    simp [Region.getSubRegions]
  have heq := getSubRegionsWithFixedSize_eq R S hSw hSh
  by_cases hcond : min S.width R.width = R.width ∧ min S.height R.height = R.height
  · refine ⟨[R], ?_, ?_, ?_, ?_, ?_⟩
    · rw [hdisp, heq, if_pos hcond]
    · intro t ht
      rcases List.mem_singleton.mp ht with rfl
      omega
    · intro _
      rfl
    · intro x y
      simp only [List.mem_singleton, exists_eq_left]
    · intro t ht
      rcases List.mem_singleton.mp ht with rfl
      omega
  · refine ⟨fixedRows R.left (R.left + R.width - 1) (R.top + R.height - 1)
      (min S.width R.width) (min S.height R.height) R.top, ?_, ?_, ?_, ?_, ?_⟩
    · rw [hdisp, heq, if_neg hcond]
    · intro t ht
      have := fixedRows_mem R.left (R.left + R.width - 1) (R.top + R.height - 1)
        (min S.width R.width) (min S.height R.height) R.top t ht
      exact ⟨this.1, this.2.1⟩
    · intro hge
      exact absurd ⟨by omega, by omega⟩ hcond
    · intro x y
      constructor
      · rintro ⟨t, ht, hc⟩
        have hm := fixedRows_mem R.left (R.left + R.width - 1) (R.top + R.height - 1)
          (min S.width R.width) (min S.height R.height) R.top t ht
        rcases hc with ⟨h1, h2, h3, h4⟩
        refine ⟨by omega, by omega, by omega, by omega⟩
      · intro hc
        rcases hc with ⟨h1, h2, h3, h4⟩
        have hww : 0 < min S.width R.width := by omega
        have hhh : 0 < min S.height R.height := by omega
        exact fixedRows_cover R.left (R.left + R.width - 1) (R.top + R.height - 1)
          (min S.width R.width) (min S.height R.height) hww hhh R.top x y
          (by omega) (by omega) (by omega) (by omega)
    · intro t ht
      have hm := fixedRows_mem R.left (R.left + R.width - 1) (R.top + R.height - 1)
        (min S.width R.width) (min S.height R.height) R.top t ht
      refine ⟨by omega, by omega, by omega, by omega⟩

/-- Witness for C2 (amended) at the container `(0,0) 2x4` and tile size `3x2`. -/
theorem fixed_tiling_amended_witness :
    ∃ tiles : List Region,
      Region.getSubRegions { left := 0, top := 0, width := 2, height := 4 }
        { width := 3, height := 2 } true = Except.ok tiles ∧
      (∀ t ∈ tiles, t.width = min 3 2 ∧ t.height = min 2 4) ∧
      ((2 : Int) ≤ 3 ∧ (4 : Int) ≤ 2 → tiles =
        [{ left := 0, top := 0, width := 2, height := 4 }]) ∧
      (∀ x y : Int, (∃ t ∈ tiles, t.containsPt x y) ↔
        Region.containsPt { left := 0, top := 0, width := 2, height := 4 } x y) ∧
      (∀ t ∈ tiles, (0 : Int) ≤ t.left ∧ t.left + t.width ≤ 0 + 2 ∧
        (0 : Int) ≤ t.top ∧ t.top + t.height ≤ 0 + 4) :=
  fixed_tiling_amended { left := 0, top := 0, width := 2, height := 4 }
    { width := 3, height := 2 } (by decide) (by decide) (by decide) (by decide)

/-- Counterexample to C2 as stated: for the container `(0,0) 2x4` and tile
size `3x2` (positive, not covering the container in both dimensions), the
fixed-size tiling clamps the tile width to the container and produces two
`2x2` tiles, so not every tile has exactly the requested size `3x2`. -/
theorem fixed_tiling_exact_size_counterexample :
    Region.getSubRegions { left := 0, top := 0, width := 2, height := 4 }
      { width := 3, height := 2 } true =
      Except.ok [{ left := 0, top := 0, width := 2, height := 2 },
        { left := 0, top := 2, width := 2, height := 2 }] ∧
    ¬ (∀ t ∈ [({ left := 0, top := 0, width := 2, height := 2 } : Region),
        { left := 0, top := 2, width := 2, height := 2 }], t.width = 3 ∧ t.height = 2) := by
  constructor
  · simp [Region.getSubRegions, getSubRegionsWithFixedSize, ArgumentGuard.greaterThanZero,
      fixedRows, fixedRow, Bind.bind, Except.bind, Pure.pure, Except.pure]
  · decide

/-- C7: for every image state (and any decoder implementation, whether or
not editing is disabled), `scaleImage` with ratio 1 and `rotateImage` with
0 degrees are complete no-ops: the image - in particular its encoded byte
buffer - is returned unchanged and no decode is performed. -/
theorem scale_one_rotate_zero_noop (disabled : Bool) (U : ImageUtilsModel) (img : MutableImage) :
    MutableImage.scaleImage disabled U img 1 = Except.ok (img, 0) ∧
    MutableImage.rotateImage disabled U img 0 = Except.ok (img, 0) := by
  constructor
  · simp [MutableImage.scaleImage]
  · simp [MutableImage.rotateImage]

/-- C10: when image editing is disabled at module load time, every
pixel-level operation on a not-yet-parsed image resolves without error and
without modifying the image, for every decoder implementation (including
one whose decode always fails): the parse is skipped, the buffer stays
unparsed, and the encoded bytes and cached dimensions are unchanged. -/
theorem disabled_mode_ops_noop (U : ImageUtilsModel) (img : MutableImage) (region : Region)
    (scaleRatio : ℚ) (degrees : Int) (h : img.isParsed = false) :
    MutableImage.cropImage true U img region = Except.ok (img, 0) ∧
    MutableImage.scaleImage true U img scaleRatio = Except.ok (img, 0) ∧
    MutableImage.rotateImage true U img degrees = Except.ok (img, 0) := by
  have hp : parseImageStep true U img = Except.ok (img, 0) := by
    simp [parseImageStep]
  refine ⟨?_, ?_, ?_⟩
  · simp [MutableImage.cropImage, hp, h]
  · by_cases hr : scaleRatio = 1
    · simp [MutableImage.scaleImage, hr]
    · simp [MutableImage.scaleImage, hr, hp, h]
  · by_cases hd : degrees = 0
    · simp [MutableImage.rotateImage, hd]
    · simp [MutableImage.rotateImage, hd, hp, h]

/-- Witness for C10: with decoding disabled, cropping, scaling by 2 and
rotating by 90 degrees all leave a concrete unparsed image untouched, even
though the decoder rejects every buffer. -/
theorem disabled_mode_ops_noop_witness :
    MutableImage.cropImage true failingImageUtils sampleUnparsedImage
        { left := 0, top := 0, width := 1, height := 1 } =
      Except.ok (sampleUnparsedImage, 0) ∧
    MutableImage.scaleImage true failingImageUtils sampleUnparsedImage 2 =
      Except.ok (sampleUnparsedImage, 0) ∧
    MutableImage.rotateImage true failingImageUtils sampleUnparsedImage 90 =
      Except.ok (sampleUnparsedImage, 0) :=
  disabled_mode_ops_noop failingImageUtils sampleUnparsedImage
    { left := 0, top := 0, width := 1, height := 1 } 2 90 rfl

/-- Behaviour of the `_setBrowserSize` retry loop started with `retries`
retries at attempt index `k`: at most `retries + 1` attempts are made, any
matching measurement within the budget resolves the loop, and if every
measurement in the budget mismatches the loop rejects after exactly
`retries + 1` attempts. -/
theorem setBrowserSizeAttempts_spec (o : BrowserWindowOracle) (req : RectangleSize) :
    ∀ retries k,
      (setBrowserSizeAttempts o req retries k).2 ≤ k + retries + 1 ∧
      ((∃ j, k ≤ j ∧ j ≤ k + retries ∧ o.observedSize j = req) →
        (setBrowserSizeAttempts o req retries k).1 = Except.ok ()) ∧
      ((∀ j, k ≤ j → j ≤ k + retries → o.observedSize j ≠ req) →
        setBrowserSizeAttempts o req retries k =
          (Except.error "Failed to set browser size: retries is out.", k + retries + 1)) := by
  intro retries
  induction retries with
  | zero =>
    intro k
    by_cases hm : o.observedSize k = req
    · have hres : setBrowserSizeAttempts o req 0 k = (Except.ok (), k + 1) := by
        simp [setBrowserSizeAttempts, hm]
      rw [hres]
      refine ⟨by omega, fun _ => rfl, ?_⟩
      intro hall
      exact absurd hm (hall k le_rfl (by omega))
    · have hres : setBrowserSizeAttempts o req 0 k =
          (Except.error "Failed to set browser size: retries is out.", k + 1) := by
        simp [setBrowserSizeAttempts, hm]
      rw [hres]
      refine ⟨by omega, ?_, fun _ => rfl⟩
      rintro ⟨j, hj1, hj2, hj3⟩
      have hjk : j = k := by omega
      subst hjk
      exact absurd hj3 hm
  | succ r ih =>
    intro k
    by_cases hm : o.observedSize k = req
    · have hres : setBrowserSizeAttempts o req (r + 1) k = (Except.ok (), k + 1) := by
        simp [setBrowserSizeAttempts, hm]
      rw [hres]
      refine ⟨by omega, fun _ => rfl, ?_⟩
      intro hall
      exact absurd hm (hall k le_rfl (by omega))
    · have hres : setBrowserSizeAttempts o req (r + 1) k =
          setBrowserSizeAttempts o req r (k + 1) := by
        simp [setBrowserSizeAttempts, hm]
      rw [hres]
      obtain ⟨ih1, ih2, ih3⟩ := ih (k + 1)
      refine ⟨by omega, ?_, ?_⟩
      · rintro ⟨j, hj1, hj2, hj3⟩
        have hjne : j ≠ k := fun he => hm (he ▸ hj3)
        exact ih2 ⟨j, by omega, by omega, hj3⟩
      · intro hall
        have hrec := ih3 (fun j h1 h2 => hall j (by omega) (by omega))
        rw [hrec]
        congr 1
        omega

/-- C6: `setBrowserSize` makes at most 4 resize attempts (the initial one
plus 3 retries); it resolves to `false` - a failure value, not a thrown
error - exactly when none of the 4 measured window sizes matches the
request, in which case all 4 attempts were used. -/
theorem setBrowserSize_retry_behavior (o : BrowserWindowOracle) (requiredSize : RectangleSize) :
    (setBrowserSize o requiredSize).2 ≤ 4 ∧
    ((setBrowserSize o requiredSize).1 = false ↔
      ∀ k, k < 4 → o.observedSize k ≠ requiredSize) ∧
    ((∀ k, k < 4 → o.observedSize k ≠ requiredSize) →
      setBrowserSize o requiredSize = (false, 4)) := by
  obtain ⟨h1, h2, h3⟩ := setBrowserSizeAttempts_spec o requiredSize 3 0
  refine ⟨?_, ⟨?_, ?_⟩, ?_⟩
  · unfold setBrowserSize
    split
    · next n heq => rw [heq] at h1; exact h1
    · next n heq => rw [heq] at h1; exact h1
  · intro hfalse k hk
    intro hmatch
    have hok := h2 ⟨k, by omega, by omega, hmatch⟩
    unfold setBrowserSize at hfalse
    revert hfalse
    split
    · simp
    · next e n heq =>
      rw [heq] at hok
      simp at hok
  · intro hall
    have hres := h3 (fun j _ hj => hall j (by omega))
    unfold setBrowserSize
    rw [hres]
  · intro hall
    have hres := h3 (fun j _ hj => hall j (by omega))
    unfold setBrowserSize
    rw [hres]

/-- The zoom workaround performs at most `max retriesLeft 1` browser-resize
attempts beyond index `k`. -/
theorem setWindowSize_attempts_le (o : ZoomOracle) (req bs : RectangleSize)
    (wD wS hD hS : Int) :
    ∀ retriesLeft avs cwc chc last k,
      (setWindowSize o req bs wD wS hD hS avs cwc chc retriesLeft last k).2 ≤
        k + max retriesLeft 1 := by
  intro retriesLeft
  induction retriesLeft using Nat.strong_induction_on with
  | _ retriesLeft ih =>
    intro avs cwc chc last k
    rw [setWindowSize]
    generalize (if |cwc| ≤ |wD| ∧ avs.width ≠ req.width then cwc + wS else cwc) = A
    generalize (if |chc| ≤ |hD| ∧ avs.height ≠ req.height then chc + hS else chc) = B
    split
    · show k ≤ k + max retriesLeft 1
      omega
    · split
      · show k + 1 ≤ k + max retriesLeft 1
        omega
      · split
        · next hguard =>
          have hrec := ih (retriesLeft - 1) (by omega) (o.viewportAfter k) A B
            (some { width := bs.width + A, height := bs.height + B }) (k + 1)
          refine hrec.trans ?_
          omega
        · show k + 1 ≤ k + max retriesLeft 1
          omega

/-- C5 (amended): the zoom workaround is entered only when the remaining
per-axis viewport discrepancy is within 3 px (otherwise the sizer rejects
with zero resize attempts), and when entered it performs at most
`max 1 |widthDiff| * max 1 |heightDiff| * 2` resize-and-remeasure attempts
(the source substitutes 1 for a zero per-axis diff in its budget). -/
theorem zoom_workaround_entry_and_budget (o : ZoomOracle)
    (requiredSize actualViewportSize browserSize : RectangleSize) :
    (¬ (|actualViewportSize.width - requiredSize.width| ≤ 3 ∧
        |actualViewportSize.height - requiredSize.height| ≤ 3) →
      setViewportSizeFinal o requiredSize actualViewportSize browserSize =
        (Except.error "Failed to set viewport size!", 0)) ∧
    (setViewportSizeFinal o requiredSize actualViewportSize browserSize).2 ≤
      (max 1 |actualViewportSize.width - requiredSize.width| *
        max 1 |actualViewportSize.height - requiredSize.height| * 2).toNat := by
  have habsw : |(if actualViewportSize.width - requiredSize.width = 0 then 1
      else actualViewportSize.width - requiredSize.width)| =
      max 1 |actualViewportSize.width - requiredSize.width| := by
    split
    · next hz => rw [hz]; simp
    · next hz =>
      have h1 : (1 : Int) ≤ |actualViewportSize.width - requiredSize.width| :=
        Int.one_le_abs (by omega)
      omega
  have habsh : |(if actualViewportSize.height - requiredSize.height = 0 then 1
      else actualViewportSize.height - requiredSize.height)| =
      max 1 |actualViewportSize.height - requiredSize.height| := by
    split
    · next hz => rw [hz]; simp
    · next hz =>
      have h1 : (1 : Int) ≤ |actualViewportSize.height - requiredSize.height| :=
        Int.one_le_abs (by omega)
      omega
  have hprod : |(if actualViewportSize.width - requiredSize.width = 0 then 1
        else actualViewportSize.width - requiredSize.width) *
      (if actualViewportSize.height - requiredSize.height = 0 then 1
        else actualViewportSize.height - requiredSize.height)| =
      max 1 |actualViewportSize.width - requiredSize.width| *
      max 1 |actualViewportSize.height - requiredSize.height| := by
    rw [abs_mul, habsw, habsh]
  have h2 : (2 : Int) ≤ max 1 |actualViewportSize.width - requiredSize.width| *
      max 1 |actualViewportSize.height - requiredSize.height| * 2 := by
    have ha : (1 : Int) ≤ max 1 |actualViewportSize.width - requiredSize.width| :=
      le_max_left _ _
    have hb : (1 : Int) ≤ max 1 |actualViewportSize.height - requiredSize.height| :=
      le_max_left _ _
    nlinarith
  constructor
  · intro hnot
    rw [setViewportSizeFinal]
    rw [if_neg hnot]
  · rw [setViewportSizeFinal]
    split
    · next hcond =>
      dsimp only
      rw [hprod]
      generalize (if actualViewportSize.width - requiredSize.width > 0
        then (-1 : Int) else 1) = wStep
      generalize (if actualViewportSize.height - requiredSize.height > 0
        then (-1 : Int) else 1) = hStep
      have hbound := setWindowSize_attempts_le o requiredSize browserSize
        (actualViewportSize.width - requiredSize.width) wStep
        (actualViewportSize.height - requiredSize.height) hStep
        ((max 1 |actualViewportSize.width - requiredSize.width| *
          max 1 |actualViewportSize.height - requiredSize.height| * 2).toNat)
        actualViewportSize 0 0 none 0
      split
      · next n heq =>
        rw [heq] at hbound
        simp only [Nat.zero_add] at hbound
        show n ≤ _
        omega
      · next e n heq =>
        rw [heq] at hbound
        simp only [Nat.zero_add] at hbound
        show n ≤ _
        omega
    · next hcond =>
      show (0 : Nat) ≤ _
      omega

/-- Counterexample to C5 as stated: with required viewport `100x100`,
measured viewport `100x99` (so `widthDiff = 0`, `heightDiff = -1`, both
within 3 px) and a browser that never reaches the required viewport, the
zoom workaround performs 2 resize attempts, exceeding the claimed budget
`|widthDiff| * |heightDiff| * 2 = 0`. -/
theorem zoom_budget_formula_counterexample :
    (setViewportSizeFinal { viewportAfter := fun _ => { width := 100, height := 99 } }
      { width := 100, height := 100 } { width := 100, height := 99 }
      { width := 200, height := 200 }).2 = 2 ∧
    ¬ ((setViewportSizeFinal { viewportAfter := fun _ => { width := 100, height := 99 } }
      { width := 100, height := 100 } { width := 100, height := 99 }
      { width := 200, height := 200 }).2 ≤
      (|(100 : Int) - 100| * |(99 : Int) - 100| * 2).toNat) := by
  have hrun : setViewportSizeFinal { viewportAfter := fun _ => { width := 100, height := 99 } }
      { width := 100, height := 100 } { width := 100, height := 99 }
      { width := 200, height := 200 } =
      (Except.error "Failed to set viewport size: zoom workaround failed.", 2) := by
    rw [setViewportSizeFinal]
    norm_num [Int.toNat_ofNat]
    rw [setWindowSize]
    norm_num
    rw [setWindowSize]
    norm_num
    rfl
  rw [hrun]
  norm_num

/-- A viewport capture only advances the capture counter. -/
theorem captureViewport_state (o : CaptureOracle) (st : CaptureState) :
    (captureViewport o st).2 = { st with captureCount := st.captureCount + 1 } := by
  rw [captureViewport]
  split <;> rfl

/-- The stitching loop never touches the overflow styles. -/
theorem processParts_overflow (o : CaptureOracle) (oi : Nat) (os : RectangleSize) :
    ∀ tiles st parts,
      (processParts o oi os tiles st parts).2.docOverflow = st.docOverflow ∧
      (processParts o oi os tiles st parts).2.bodyOverflow = st.bodyOverflow := by
  intro tiles
  induction tiles with
  | nil =>
    intro st parts
    exact ⟨rfl, rfl⟩
  | cons t rest ih =>
    intro st parts
    rw [processParts]
    split
    · exact ih st _
    · dsimp only
      split
      · next e st2 heq =>
        have h2 : (captureViewport o { st with scrollPos := o.clampPos ⟨t.left, t.top⟩ }).2
            = st2 := by rw [heq]
        rw [captureViewport_state] at h2
        constructor
        · show st2.docOverflow = st.docOverflow
          rw [← h2]
        · show st2.bodyOverflow = st.bodyOverflow
          rw [← h2]
      · next img st2 heq =>
        have h2 : (captureViewport o { st with scrollPos := o.clampPos ⟨t.left, t.top⟩ }).2
            = st2 := by rw [heq]
        rw [captureViewport_state] at h2
        have hdoc : st2.docOverflow = st.docOverflow := by rw [← h2]
        have hbody : st2.bodyOverflow = st.bodyOverflow := by rw [← h2]
        exact ⟨(ih st2 _).1.trans hdoc, (ih st2 _).2.trans hbody⟩

/-- C4 (amended): during stitching, a clamped tile scroll is never fatal:
with every capture succeeding, `_processPart` folded over any tile list
resolves, and each recorded non-origin part carries the achieved scroll
offset (`clampPos` applied to the tile's requested offset, re-read from the
position provider) rather than the requested offset; the origin tile reuses
the origin image at position `(0,0)` without scrolling. -/
theorem tile_scroll_uses_achieved_offset (o : CaptureOracle) (originIndex : Nat)
    (originSize : RectangleSize) (hok : ∀ j, o.captureOk j = true) :
    ∀ tiles st parts0,
      ∃ newParts st',
        processParts o originIndex originSize tiles st parts0 =
          (Except.ok (parts0 ++ newParts), st') ∧
        List.Forall₂ (fun (t : Region) (p : CapturePart) =>
          (t.left = 0 ∧ t.top = 0 → p.position = ⟨0, 0⟩ ∧ p.imageIndex = originIndex) ∧
          (¬(t.left = 0 ∧ t.top = 0) → p.position = o.clampPos ⟨t.left, t.top⟩))
          tiles newParts := by
  intro tiles
  induction tiles with
  | nil =>
    intro st parts0
    refine ⟨[], st, ?_, List.Forall₂.nil⟩
    rw [processParts]
    simp
  | cons t rest ih =>
    intro st parts0
    by_cases ho : t.left = 0 ∧ t.top = 0
    · obtain ⟨np, st', heq, hrel⟩ := ih st
        (parts0 ++ [{ imageIndex := originIndex, size := originSize, position := ⟨0, 0⟩ }])
      refine ⟨{ imageIndex := originIndex, size := originSize, position := ⟨0, 0⟩ } :: np,
        st', ?_, ?_⟩
      · rw [processParts, if_pos ho, heq]
        simp
      · exact List.Forall₂.cons ⟨fun _ => ⟨rfl, rfl⟩, fun hne => absurd ho hne⟩ hrel
    · have hcv : captureViewport o { st with scrollPos := o.clampPos ⟨t.left, t.top⟩ } =
          (Except.ok (st.captureCount, o.captureSize st.captureCount),
            { st with
              scrollPos := o.clampPos ⟨t.left, t.top⟩
              captureCount := st.captureCount + 1 }) := by
        rw [captureViewport, if_pos (hok _)]
      obtain ⟨np, st', heq, hrel⟩ := ih
        { st with
          scrollPos := o.clampPos ⟨t.left, t.top⟩
          captureCount := st.captureCount + 1 }
        (parts0 ++ [(⟨st.captureCount, o.captureSize st.captureCount,
          o.clampPos ⟨t.left, t.top⟩⟩ : CapturePart)])
      refine ⟨(⟨st.captureCount, o.captureSize st.captureCount,
          o.clampPos ⟨t.left, t.top⟩⟩ : CapturePart) :: np, st', ?_, ?_⟩
      · rw [processParts, if_neg ho]
        dsimp only
        rw [hcv]
        dsimp only
        rw [heq]
        simp
      · refine List.Forall₂.cons ⟨fun hyes => absurd hyes ho, fun _ => rfl⟩ hrel

/-- Witness for C4 (amended) on two tiles, the second of which the browser
clamps vertically to 3: the loop resolves and records the clamped offset. -/
theorem tile_scroll_uses_achieved_offset_witness :
    ∃ newParts st',
      processParts
        { entireSize := none, pixelRatio := none,
          clampPos := fun p => ⟨p.x, min p.y 3⟩, captureOk := fun _ => true,
          captureSize := fun _ => { width := 5, height := 5 },
          isBodyOverflowHidden := false } 0 { width := 5, height := 5 }
        [{ left := 0, top := 0, width := 5, height := 5 },
         { left := 0, top := 5, width := 5, height := 5 }]
        { docOverflow := "", bodyOverflow := "", scrollPos := ⟨0, 0⟩,
          captureCount := 1, tilingInvoked := true } [] =
        (Except.ok ([] ++ newParts), st') ∧
      List.Forall₂ (fun (t : Region) (p : CapturePart) =>
        (t.left = 0 ∧ t.top = 0 → p.position = ⟨0, 0⟩ ∧ p.imageIndex = 0) ∧
        (¬(t.left = 0 ∧ t.top = 0) →
          p.position = (fun p : Location => (⟨p.x, min p.y 3⟩ : Location)) ⟨t.left, t.top⟩))
        [{ left := 0, top := 0, width := 5, height := 5 },
         { left := 0, top := 5, width := 5, height := 5 }] newParts :=
  tile_scroll_uses_achieved_offset
    { entireSize := none, pixelRatio := none,
      clampPos := fun p => ⟨p.x, min p.y 3⟩, captureOk := fun _ => true,
      captureSize := fun _ => { width := 5, height := 5 },
      isBodyOverflowHidden := false } 0 { width := 5, height := 5 }
    (fun _ => rfl)
    [{ left := 0, top := 0, width := 5, height := 5 },
     { left := 0, top := 5, width := 5, height := 5 }]
    { docOverflow := "", bodyOverflow := "", scrollPos := ⟨0, 0⟩,
      captureCount := 1, tilingInvoked := true } []

/-- Inversion for `andThen`: a resolved chain means the first step resolved
and the continuation resolved from the intermediate state. -/
theorem andThen_ok {α β : Type} {x : Except String α × CaptureState}
    {f : α → CaptureState → Except String β × CaptureState} {b : β} {st' : CaptureState}
    (h : andThen x f = (Except.ok b, st')) :
    ∃ a stm, x = (Except.ok a, stm) ∧ f a stm = (Except.ok b, st') := by
  rcases x with ⟨ex, stx⟩
  cases ex with
  | error e => simp [andThen] at h
  | ok a => exact ⟨a, stx, rfl, h⟩

/-- Field characterisation of step 3. -/
theorem afterHideScrollbars_fields (o : CaptureOracle) (args : GetScreenshotArgs)
    (st0 : CaptureState) :
    (afterHideScrollbars o args st0).docOverflow =
      (if hideScrollbarsResolved args then "hidden" else st0.docOverflow) ∧
    (afterHideScrollbars o args st0).bodyOverflow =
      (if bodyWillChange o args then "initial" else st0.bodyOverflow) ∧
    (afterHideScrollbars o args st0).scrollPos = st0.scrollPos ∧
    (afterHideScrollbars o args st0).captureCount = st0.captureCount ∧
    (afterHideScrollbars o args st0).tilingInvoked = st0.tilingInvoked := by
  rw [afterHideScrollbars]
  refine ⟨?_, ?_, ?_, ?_, ?_⟩ <;> (split <;> split <;> rfl)

/-- Field characterisation of the restoration steps. -/
theorem restoreChrome_fields (o : CaptureOracle) (args : GetScreenshotArgs)
    (originalOverflow originalBodyOverflow : String) (originalPosition : Location)
    (st : CaptureState) :
    (restoreChrome o args originalOverflow originalBodyOverflow originalPosition st).docOverflow =
      (if hideScrollbarsResolved args then originalOverflow else st.docOverflow) ∧
    (restoreChrome o args originalOverflow originalBodyOverflow originalPosition st).bodyOverflow =
      (if bodyWillChange o args ∧ originalBodyOverflow ≠ "" then originalBodyOverflow
        else st.bodyOverflow) ∧
    (restoreChrome o args originalOverflow originalBodyOverflow originalPosition st).scrollPos =
      (if args.fullPage then originalPosition else st.scrollPos) := by
  rw [restoreChrome]
  refine ⟨?_, ?_, ?_⟩ <;> (split <;> split <;> split <;> rfl)

/-- C3 (amended): when the capture pipeline resolves, the pre-capture state
is restored on exit: the document overflow equals its pre-capture value
(whether or not scrollbars were hidden), the body overflow equals its
pre-capture value unless it was changed while its saved inline value was
the empty string (which JavaScript truthiness makes the source skip), and
for a full-page capture the position provider's scroll offset is restored.
When an intermediate step rejects, the restoration callbacks are skipped
and the overflow styles stay as the failure left them (see the
counterexample). -/
theorem overflow_restored_on_success (o : CaptureOracle) (args : GetScreenshotArgs)
    (st0 : CaptureState) (res : ScreenshotOutcome) (st' : CaptureState)
    (h : getScreenshot o args st0 = (Except.ok res, st')) :
    st'.docOverflow = st0.docOverflow ∧
    (st0.bodyOverflow ≠ "" → st'.bodyOverflow = st0.bodyOverflow) ∧
    (bodyWillChange o args = false → st'.bodyOverflow = st0.bodyOverflow) ∧
    (args.fullPage = true → st'.scrollPos = st0.scrollPos) := by
  rw [getScreenshot] at h
  obtain ⟨u1, st3, h4, h⟩ := andThen_ok h
  obtain ⟨u2, st4, hreg, h⟩ := andThen_ok h
  obtain ⟨origin, st5, horig, h⟩ := andThen_ok h
  obtain ⟨source, st8, htile, h⟩ := andThen_ok h
  simp only [Prod.mk.injEq, Except.ok.injEq] at h
  obtain ⟨hres, hst⟩ := h
  have h3 : st3.docOverflow = (afterHideScrollbars o args st0).docOverflow ∧
      st3.bodyOverflow = (afterHideScrollbars o args st0).bodyOverflow := by
    split at h4
    · dsimp only at h4
      split at h4
      · simp at h4
      · simp only [Prod.mk.injEq, Except.ok.injEq] at h4
        obtain ⟨-, h4⟩ := h4
        rw [← h4]
        exact ⟨rfl, rfl⟩
    · simp only [Prod.mk.injEq, Except.ok.injEq] at h4
      obtain ⟨-, h4⟩ := h4
      rw [← h4]
      exact ⟨rfl, rfl⟩
  have h4' : st4.docOverflow = st3.docOverflow ∧ st4.bodyOverflow = st3.bodyOverflow := by
    split at hreg
    · obtain ⟨u3, stm, hcv, hf⟩ := andThen_ok hreg
      simp only [Prod.mk.injEq, Except.ok.injEq] at hf
      obtain ⟨-, hf⟩ := hf
      have hc : (captureViewport o st3).2 = stm := by rw [hcv]
      rw [captureViewport_state] at hc
      rw [← hf, ← hc]
      exact ⟨rfl, rfl⟩
    · simp only [Prod.mk.injEq, Except.ok.injEq] at hreg
      obtain ⟨-, hreg⟩ := hreg
      rw [← hreg]
      exact ⟨rfl, rfl⟩
  have h5' : st5.docOverflow = st4.docOverflow ∧ st5.bodyOverflow = st4.bodyOverflow := by
    have hc : (captureViewport o st4).2 = st5 := by rw [horig]
    rw [captureViewport_state] at hc
    rw [← hc]
    exact ⟨rfl, rfl⟩
  have h8 : st8.docOverflow = st5.docOverflow ∧ st8.bodyOverflow = st5.bodyOverflow := by
    split at htile
    · simp only [Prod.mk.injEq, Except.ok.injEq] at htile
      obtain ⟨-, htile⟩ := htile
      rw [← htile]
      exact ⟨rfl, rfl⟩
    · split at htile
      · simp only [Prod.mk.injEq, Except.ok.injEq] at htile
        obtain ⟨-, htile⟩ := htile
        rw [← htile]
        exact ⟨rfl, rfl⟩
      · obtain ⟨ps, st6, hsub, htile⟩ := andThen_ok htile
        obtain ⟨parts, st7, hproc, hfin⟩ := andThen_ok htile
        simp only [Prod.mk.injEq, Except.ok.injEq] at hfin
        obtain ⟨-, hfin⟩ := hfin
        have h6 : st6.docOverflow = st5.docOverflow ∧ st6.bodyOverflow = st5.bodyOverflow := by
          split at hsub
          · simp only [Prod.mk.injEq, Except.ok.injEq] at hsub
            obtain ⟨-, hsub⟩ := hsub
            rw [← hsub]
            exact ⟨rfl, rfl⟩
          · simp at hsub
        have h7 := processParts_overflow o origin.1 origin.2 ps st6 []
        rw [hproc] at h7
        rw [← hfin]
        exact ⟨h7.1.trans h6.1, h7.2.trans h6.2⟩
  obtain ⟨hrc1, hrc2, hrc3⟩ := restoreChrome_fields o args st0.docOverflow st0.bodyOverflow
    (afterHideScrollbars o args st0).scrollPos st8
  obtain ⟨ha1, ha2, ha3, -, -⟩ := afterHideScrollbars_fields o args st0
  rw [hst] at hrc1 hrc2 hrc3
  refine ⟨?_, ?_, ?_, ?_⟩
  · rw [hrc1]
    split
    · rfl
    · next hns =>
      rw [h8.1, h5'.1, h4'.1, h3.1, ha1, if_neg hns]
  · intro hne
    rw [hrc2]
    split
    · rfl
    · next hcond =>
      have hbw : ¬ (bodyWillChange o args = true) := fun hb => hcond ⟨hb, hne⟩
      rw [h8.2, h5'.2, h4'.2, h3.2, ha2, if_neg hbw]
  · intro hbfalse
    rw [hrc2]
    split
    · next hcond =>
      rw [hbfalse] at hcond
    · rw [h8.2, h5'.2, h4'.2, h3.2, ha2, hbfalse]
      simp
  · intro hfp
    rw [hrc3, if_pos hfp, ha3]


/-- Witness for C3 (amended): a concrete successful full-page capture with
scrollbars hidden restores the document overflow, body overflow and scroll
offset. -/
theorem overflow_restored_on_success_witness :
    postCaptureState.docOverflow = preCaptureState.docOverflow ∧
    (preCaptureState.bodyOverflow ≠ "" →
      postCaptureState.bodyOverflow = preCaptureState.bodyOverflow) ∧
    (bodyWillChange wholePageOracle fullPageHideArgs = false →
      postCaptureState.bodyOverflow = preCaptureState.bodyOverflow) ∧
    (fullPageHideArgs.fullPage = true →
      postCaptureState.scrollPos = preCaptureState.scrollPos) :=
  overflow_restored_on_success wholePageOracle fullPageHideArgs preCaptureState
    { source := CaptureResult.single 0, croppedAtEnd := false } postCaptureState rfl

/-- Counterexample to C3 as stated: scrollbars are hidden, then the scroll
to the origin is clamped to `(0,1)`, the pipeline rejects, and no
restoration runs - the document overflow is left at `"hidden"` instead of
its pre-capture value `"visible"`. -/
theorem overflow_restore_on_failure_counterexample :
    (getScreenshot clampToY1Oracle fullPageHideSmallArgs plainState).1 =
      Except.error "Could not scroll to the x/y corner of the screen" ∧
    (getScreenshot clampToY1Oracle fullPageHideSmallArgs plainState).2.docOverflow =
      "hidden" ∧
    plainState.docOverflow = "visible" ∧ "hidden" ≠ "visible" := by
  refine ⟨rfl, rfl, rfl, ?_⟩
  decide

/-- Counterexample to C4 as stated: when the scroll to the origin `(0,0)` at
the start of a full-page capture is clamped (here to `(0,5)`), the failure
is fatal - `getScreenshot` rejects instead of continuing with the achieved
offset. -/
theorem origin_scroll_clamp_fatal_counterexample :
    (getScreenshot clampToY5Oracle fullPageNoHideArgs plainState).1 =
      Except.error "Could not scroll to the x/y corner of the screen" := rfl

/-- Restoration touches neither the capture counter nor the tiling flag. -/
theorem restoreChrome_counters (o : CaptureOracle) (args : GetScreenshotArgs)
    (originalOverflow originalBodyOverflow : String) (originalPosition : Location)
    (st : CaptureState) :
    (restoreChrome o args originalOverflow originalBodyOverflow originalPosition
      st).captureCount = st.captureCount ∧
    (restoreChrome o args originalOverflow originalBodyOverflow originalPosition
      st).tilingInvoked = st.tilingInvoked := by
  rw [restoreChrome]
  constructor <;> (split <;> split <;> split <;> rfl)

/-- C8: a capture that is neither full-page nor frame/element, and a capture
whose single origin image already covers the full logical page, never
invoke the tiling logic: exactly one viewport capture is taken and that
single capture is the result. -/
theorem single_capture_skips_tiling (o : CaptureOracle) (args : GetScreenshotArgs)
    (st0 : CaptureState)
    (hcount : st0.captureCount = 0)
    (hrp : args.hasRegionProvider = false)
    (hclamp : args.fullPage = true → o.clampPos ⟨0, 0⟩ = ⟨0, 0⟩)
    (hok : o.captureOk 0 = true)
    (hcover : (args.fullPage = false ∧ args.checkFrameOrElement = false) ∨
      ((o.captureSize 0).width ≥ (match o.entireSize with
          | some s => s
          | none => args.viewportSize).width ∧
        (o.captureSize 0).height ≥ (match o.entireSize with
          | some s => s
          | none => args.viewportSize).height)) :
    ∃ st', getScreenshot o args st0 =
        (Except.ok { source := CaptureResult.single 0, croppedAtEnd := false }, st') ∧
      st'.tilingInvoked = st0.tilingInvoked ∧
      st'.captureCount = 1 := by
  have hfields := afterHideScrollbars_fields o args st0
  have hacc : (afterHideScrollbars o args st0).captureCount = 0 := by
    rw [hfields.2.2.2.1, hcount]
  have hatil : (afterHideScrollbars o args st0).tilingInvoked = st0.tilingInvoked :=
    hfields.2.2.2.2
  by_cases hfp : args.fullPage = true
  · have hscroll : o.clampPos ⟨0, 0⟩ = (⟨0, 0⟩ : Location) := hclamp hfp
    have hc2 : (o.captureSize 0).width ≥ (match o.entireSize with
        | some s => s
        | none => args.viewportSize).width ∧
        (o.captureSize 0).height ≥ (match o.entireSize with
          | some s => s
          | none => args.viewportSize).height := by
      rcases hcover with ⟨hfpf, -⟩ | hc
      · rw [hfp] at hfpf
        exact absurd hfpf (by simp)
      · exact hc
    rw [getScreenshot]
    simp only [hfp, hrp, hscroll, andThen, captureViewport, hacc, hok, hatil, if_true,
      Bool.not_true, Bool.false_and, Bool.and_false, ne_eq, not_true_eq_false, if_false,
      Bool.false_eq_true, if_pos hc2]
    refine ⟨_, rfl, ?_, ?_⟩
    · rw [(restoreChrome_counters o args st0.docOverflow st0.bodyOverflow
        (afterHideScrollbars o args st0).scrollPos _).2]
    · rw [(restoreChrome_counters o args st0.docOverflow st0.bodyOverflow
        (afterHideScrollbars o args st0).scrollPos _).1]
  · have hfpf : args.fullPage = false := by
      cases hq : args.fullPage
      · rfl
      · exact absurd hq hfp
    rcases hcover with ⟨-, hcf⟩ | hc
    · rw [getScreenshot]
      simp only [hfpf, hrp, andThen, captureViewport, hacc, hok, hatil, hcf,
        Bool.not_false, Bool.and_self, Bool.false_eq_true, if_false, Bool.true_and,
        eq_self_iff_true, if_true, ite_self, Bool.and_false]
      refine ⟨_, rfl, ?_, ?_⟩
      · rw [(restoreChrome_counters o args st0.docOverflow st0.bodyOverflow
          (afterHideScrollbars o args st0).scrollPos _).2]
      · rw [(restoreChrome_counters o args st0.docOverflow st0.bodyOverflow
          (afterHideScrollbars o args st0).scrollPos _).1]
    · rw [getScreenshot]
      simp only [hfpf, hrp, andThen, captureViewport, hacc, hok, hatil,
        Bool.false_eq_true, if_false, Bool.not_false, Bool.true_and, if_pos hc,
        eq_self_iff_true, if_true, ite_self, Bool.and_false]
      refine ⟨_, rfl, ?_, ?_⟩
      · rw [(restoreChrome_counters o args st0.docOverflow st0.bodyOverflow
          (afterHideScrollbars o args st0).scrollPos _).2]
      · rw [(restoreChrome_counters o args st0.docOverflow st0.bodyOverflow
          (afterHideScrollbars o args st0).scrollPos _).1]

/-- Witness for C8: a plain viewport capture takes one screenshot and skips
tiling. -/
theorem single_capture_skips_tiling_witness :
    ∃ st', getScreenshot wholePageOracle nonFullPageArgs plainState =
        (Except.ok { source := CaptureResult.single 0, croppedAtEnd := false }, st') ∧
      st'.tilingInvoked = plainState.tilingInvoked ∧
      st'.captureCount = 1 :=
  single_capture_skips_tiling wholePageOracle nonFullPageArgs plainState rfl rfl
    (fun _ => rfl) rfl (Or.inl ⟨rfl, rfl⟩)
